import Mathlib

/-!
Shallow embedding of the window square-footage estimator (the complete,
pinch-zoom-enabled variant of `App.tsx`, i.e. `src/unnamed/part_000`).

JavaScript numbers are modelled as exact rationals `ℚ`; the string ids
produced by `uid()` (random, intended unique) are modelled as a fresh
natural-number counter `nextId`, with the draft sentinel id `"draft"`
modelled as `0`.  JS truthiness on a nullable number (`!x` is true for
both `null` and `0`) is modelled explicitly where the source relies on it.
-/

namespace WinEst

/-- `type BoxType = "reference" | "window"`. -/
inductive BoxType
  | reference
  | window
deriving DecidableEq, Repr

/-- `type Box = { id, type, label, x, y, w, h }`, coordinates in image pixels. -/
structure Box where
  id : Nat
  type : BoxType
  label : String
  x : ℚ
  y : ℚ
  w : ℚ
  h : ℚ
deriving DecidableEq, Repr

/-- A point `{x, y}`. -/
structure Pt where
  x : ℚ
  y : ℚ
deriving DecidableEq, Repr

/-- Viewport `view = { scale, tx, ty }` (zoom/pan in base canvas space). -/
structure View where
  scale : ℚ
  tx : ℚ
  ty : ℚ
deriving DecidableEq, Repr

/-- `refPreset`: `"paper" | "door" | "custom"`. -/
inductive RefPreset
  | paper
  | door
  | custom
deriving DecidableEq, Repr

/-- `clampScale(s) = Math.max(1, Math.min(6, s))`. -/
def clampScale (s : ℚ) : ℚ := max 1 (min 6 s)

/-- `mid(a, b)`: midpoint of two device points. -/
def mid (a b : Pt) : Pt := ⟨(a.x + b.x) / 2, (a.y + b.y) / 2⟩

/-- The captured pinch baseline `pinchStart = { dist, mid, scale, tx, ty }`. -/
structure PinchStart where
  dist : ℚ
  mid : Pt
  scale : ℚ
  tx : ℚ
  ty : ℚ
deriving DecidableEq, Repr

/-- The viewport written by the two-pointer move path of `onPointerMove`:
`scale = clampScale(start.scale * (dNow / start.dist))`, pan = baseline pan
plus the midpoint delta. -/
def pinchMoveView (start : PinchStart) (dNow : ℚ) (mNow : Pt) : View :=
  { scale := clampScale (start.scale * (dNow / start.dist))
    tx := start.tx + (mNow.x - start.mid.x)
    ty := start.ty + (mNow.y - start.mid.y) }

/-- `referenceBox = boxes.find(b => b.type === "reference") ?? null`. -/
def referenceBox (boxes : List Box) : Option Box :=
  boxes.find? (fun b => b.type == BoxType.reference)

/-- `windowBoxes = boxes.filter(b => b.type === "window")`. -/
def windowBoxes (boxes : List Box) : List Box :=
  boxes.filter (fun b => b.type == BoxType.window)

/-- `pixelsPerInch`: `null` without a reference box or when
`refRealInches > 0` fails; otherwise `referenceBox.h / refRealInches`. -/
def pixelsPerInch (refBox : Option Box) (refRealInches : ℚ) : Option ℚ :=
  match refBox with
  | none => none
  | some rb => if 0 < refRealInches then some (rb.h / refRealInches) else none

/-- `windowSqft`: `null` when `!pixelsPerInch` (JS truthiness: `null` or `0`);
otherwise the loop `total += (b.w/ppi * (b.h/ppi)) / 144` over `windowBoxes`. -/
def windowSqft (ppi : Option ℚ) (ws : List Box) : Option ℚ :=
  match ppi with
  | none => none
  | some p =>
      if p = 0 then none
      else some (ws.foldl (fun total b => total + (b.w / p) * (b.h / p) / 144) 0)

/-- `SOLAR_PER_SQFT = 12` (fixed internal baseline cost rate). -/
def SOLAR_PER_SQFT : ℚ := 12

/-- `RETAIL_LOW_PER_SQFT = 14`. -/
def RETAIL_LOW_PER_SQFT : ℚ := 14

/-- `RETAIL_HIGH_PER_SQFT = 15`. -/
def RETAIL_HIGH_PER_SQFT : ℚ := 15

/-- The pricing figures computed inside the Retail & Commission section. -/
structure Pricing where
  retailLow : ℚ
  retailHigh : ℚ
  commissionLow : ℚ
  commissionHigh : ℚ
deriving DecidableEq, Repr

/-- The Retail & Commission section: renders nothing when
`(!windowSqft || !pixelsPerInch)` (JS truthiness: absent or zero); otherwise
computes `solarTotal`, `retailLowTotal`, `retailHighTotal` and the
commissions `retail − solar`. -/
def renderPricing : Option ℚ → Option ℚ → Option Pricing
  | some sqft, some ppi =>
      if sqft = 0 ∨ ppi = 0 then none
      else
        let solarTotal := sqft * SOLAR_PER_SQFT
        let retailLowTotal := sqft * RETAIL_LOW_PER_SQFT
        let retailHighTotal := sqft * RETAIL_HIGH_PER_SQFT
        some { retailLow := retailLowTotal
               retailHigh := retailHighTotal
               commissionLow := retailLowTotal - solarTotal
               commissionHigh := retailHighTotal - solarTotal }
  | _, _ => none

/-- Result of `getCanvasAndImageScale()`: the base "contain" geometry
`{ baseW, baseH, baseOffsetX, baseOffsetY, baseScale }` (canvas CSS pixels). -/
structure Fit where
  baseW : ℚ
  baseH : ℚ
  baseOffsetX : ℚ
  baseOffsetY : ℚ
  baseScale : ℚ
deriving DecidableEq, Repr

/-- `getCanvasAndImageScale()`: contain-fit the natural image size into the
display size; `baseScale = baseW / imageNatural.w`. -/
def getCanvasAndImageScale (natW natH dispW dispH : ℚ) : Fit :=
  let imgAspect := natW / natH
  let canvasAspect := dispW / dispH
  if canvasAspect < imgAspect then
    { baseW := dispW
      baseH := dispW / imgAspect
      baseOffsetX := 0
      baseOffsetY := (dispH - dispW / imgAspect) / 2
      baseScale := dispW / natW }
  else
    { baseW := dispH * imgAspect
      baseH := dispH
      baseOffsetX := (dispW - dispH * imgAspect) / 2
      baseOffsetY := 0
      baseScale := dispH * imgAspect / natW }

/-- `canvasPointToImagePoint(clientX, clientY)`: subtract the canvas origin,
remove the contain offset, undo pan and zoom, undo the base scale, and
reject points outside `[0, imageNatural.w] × [0, imageNatural.h]`. -/
def canvasPointToImagePoint (natW natH : ℚ) (fit : Fit) (view : View)
    (rectLeft rectTop clientX clientY : ℚ) : Option Pt :=
  let xCanvas := clientX - rectLeft
  let yCanvas := clientY - rectTop
  let xInBase := xCanvas - fit.baseOffsetX
  let yInBase := yCanvas - fit.baseOffsetY
  let xUnzoom := (xInBase - view.tx) / view.scale
  let yUnzoom := (yInBase - view.ty) / view.scale
  let xImg := xUnzoom / fit.baseScale
  let yImg := yUnzoom / fit.baseScale
  if xImg < 0 ∨ yImg < 0 then none
  else if natW < xImg ∨ natH < yImg then none
  else some ⟨xImg, yImg⟩

/-- A stroked rectangle in canvas coordinates. -/
structure DevRect where
  x : ℚ
  y : ℚ
  w : ℚ
  h : ℚ
deriving DecidableEq, Repr

/-- The renderer's `drawBox`: image px → base px (`* baseScale`) → canvas px
(`offset + view.t + base * view.scale`). -/
def drawBox (b : Box) (fit : Fit) (view : View) : DevRect :=
  let xBase := b.x * fit.baseScale
  let yBase := b.y * fit.baseScale
  let wBase := b.w * fit.baseScale
  let hBase := b.h * fit.baseScale
  { x := fit.baseOffsetX + view.tx + xBase * view.scale
    y := fit.baseOffsetY + view.ty + yBase * view.scale
    w := wBase * view.scale
    h := hBase * view.scale }

/-- Environment supplied by the browser: display size of the canvas and its
client-rect origin (`rect.left`, `rect.top`). -/
structure Env where
  dispW : ℚ
  dispH : ℚ
  rectLeft : ℚ
  rectTop : ℚ
deriving DecidableEq, Repr

/-- The component's state relevant to the annotation engine. -/
structure AppState where
  imageUrl : String
  imageNatural : Option (ℚ × ℚ)
  boxes : List Box
  activeDrawType : BoxType
  dragStart : Option Pt
  draftBox : Option Box
  refPreset : RefPreset
  refRealInches : ℚ
  view : View
  nextId : Nat
deriving DecidableEq, Repr

/-- The initial component state (`useState` initialisers). -/
def initState : AppState :=
  { imageUrl := ""
    imageNatural := none
    boxes := []
    activeDrawType := BoxType.reference
    dragStart := none
    draftBox := none
    refPreset := RefPreset.paper
    refRealInches := 11
    view := { scale := 1, tx := 0, ty := 0 }
    nextId := 1 }

/-- `canvasPointToImagePoint` as called from the handlers: the fit is
recomputed from the current `imageNatural` and the canvas rect. -/
def stateToImagePoint (s : AppState) (env : Env) (clientX clientY : ℚ) : Option Pt :=
  match s.imageNatural with
  | none => none
  | some (nw, nh) =>
      canvasPointToImagePoint nw nh
        (getCanvasAndImageScale nw nh env.dispW env.dispH) s.view
        env.rectLeft env.rectTop clientX clientY

/-- `handlePointerDown`: bail without an image or when the point maps
off-image; otherwise record the anchor and open a 1×1 draft of the active
kind with the preset- or count-derived label. -/
def handlePointerDown (s : AppState) (env : Env) (clientX clientY : ℚ) : AppState :=
  if s.imageUrl = "" then s
  else
    match stateToImagePoint s env clientX clientY with
    | none => s
    | some pt =>
        let label :=
          match s.activeDrawType with
          | BoxType.reference =>
              match s.refPreset with
              | RefPreset.paper => "Paper"
              | RefPreset.door => "Door"
              | RefPreset.custom => "Reference"
          | BoxType.window => "Window " ++ toString ((windowBoxes s.boxes).length + 1)
        { s with
          dragStart := some pt
          draftBox := some { id := 0, type := s.activeDrawType, label := label,
                             x := pt.x, y := pt.y, w := 1, h := 1 } }

/-- `handlePointerMove` (one-pointer path): with an anchor and a draft, and a
point that maps on-image, the draft becomes the axis-aligned span of anchor
and point. -/
def handlePointerMove (s : AppState) (env : Env) (clientX clientY : ℚ) : AppState :=
  match s.dragStart, s.draftBox with
  | some a, some d =>
      match stateToImagePoint s env clientX clientY with
      | none => s
      | some pt =>
          { s with
            draftBox := some { d with
              x := min a.x pt.x
              y := min a.y pt.y
              w := |pt.x - a.x|
              h := |pt.y - a.y| } }
  | _, _ => s

/-- `handlePointerUp`: no draft → just clear the anchor; a draft below the
10×10 px threshold is discarded; otherwise commit it with a fresh id,
a reference draft first evicting any existing reference box. -/
def handlePointerUp (s : AppState) : AppState :=
  match s.draftBox with
  | none => { s with dragStart := none }
  | some d =>
      if d.w < 10 ∨ d.h < 10 then
        { s with draftBox := none, dragStart := none }
      else
        let committed : Box := { d with id := s.nextId }
        let boxes' :=
          if d.type = BoxType.reference then
            (s.boxes.filter (fun b => b.type != BoxType.reference)) ++ [committed]
          else
            s.boxes ++ [committed]
        { s with boxes := boxes', draftBox := none, dragStart := none,
                 nextId := s.nextId + 1 }

/-- `deleteBox(id)`: drop the box with the given id. -/
def deleteBox (s : AppState) (i : Nat) : AppState :=
  { s with boxes := s.boxes.filter (fun b => b.id != i) }

/-- `resetAll()`: clear boxes, draft and anchor. -/
def resetAll (s : AppState) : AppState :=
  { s with boxes := [], draftBox := none, dragStart := none }

/-- `resetView()`: viewport back to the identity transform. -/
def resetView (s : AppState) : AppState :=
  { s with view := { scale := 1, tx := 0, ty := 0 } }

/-- `onFileChange`: with no file, do nothing; otherwise set the new image
URL, `resetAll()`, `resetView()`. -/
def onFileChange (s : AppState) (file : Option String) : AppState :=
  match file with
  | none => s
  | some url => resetView (resetAll { s with imageUrl := url })

/-- The img `onLoad` handler: record the natural pixel dimensions. -/
def setImageNatural (s : AppState) (nw nh : ℚ) : AppState :=
  { s with imageNatural := some (nw, nh) }

/-- `setActiveDrawType` (the Draw Reference / Draw Windows toggle). -/
def setActiveDrawType (s : AppState) (t : BoxType) : AppState :=
  { s with activeDrawType := t }

/-- One full commit step: the draft is in place and the pointer is released
(`handlePointerUp`). -/
def commitDraft (s : AppState) (d : Box) : AppState :=
  handlePointerUp { s with draftBox := some d }

/-- A sequence of commit steps. -/
def commitAll (s : AppState) (ds : List Box) : AppState :=
  ds.foldl commitDraft s

/-- A box up to identity: everything except the generated `id`. -/
def Box.core (b : Box) : BoxType × String × ℚ × ℚ × ℚ × ℚ :=
  (b.type, b.label, b.x, b.y, b.w, b.h)

lemma windowSqft_foldl (p : ℚ) (l : List Box) (c : ℚ) :
    l.foldl (fun total b => total + (b.w / p) * (b.h / p) / 144) c
      = c + (l.map (fun b => (b.w / p) * (b.h / p) / 144)).sum := by
  induction l generalizing c with
  | nil => simp
  | cons b t ih => simp [ih]; ring

/-- C4: for every ppi `p > 0`, `windowSqft` is the sum of
`(w/p) × (h/p) / 144` over the measurement rectangles; on the empty list it
is the defined value `0`; and it is undefined exactly when ppi is undefined
(given that any defined ppi is positive). -/
theorem windowSqft_spec (p : ℚ) (ws : List Box) (hp : 0 < p) :
    windowSqft (some p) ws = some ((ws.map (fun b => (b.w / p) * (b.h / p) / 144)).sum)
    ∧ windowSqft (some p) ([] : List Box) = some 0
    ∧ windowSqft none ws = none
    ∧ (∀ oppi : Option ℚ, (∀ q, oppi = some q → 0 < q) →
        (windowSqft oppi ws = none ↔ oppi = none)) := by
  have hp0 : p ≠ 0 := ne_of_gt hp
  refine ⟨?_, ?_, rfl, ?_⟩
  · simp [windowSqft, hp0, windowSqft_foldl]
  · simp [windowSqft, hp0]
  · intro oppi hpos
    cases oppi with
    | none => simp [windowSqft]
    | some q =>
        have hq : q ≠ 0 := ne_of_gt (hpos q rfl)
        simp [windowSqft, hq]

theorem windowSqft_spec_witness :
    windowSqft (some 10) [⟨1, BoxType.window, "Window 1", 300, 300, 100, 50⟩]
        = some (([(⟨1, BoxType.window, "Window 1", 300, 300, 100, 50⟩ : Box)].map
            (fun b => (b.w / 10) * (b.h / 10) / 144)).sum)
    ∧ windowSqft (some 10) ([] : List Box) = some 0
    ∧ windowSqft none [⟨1, BoxType.window, "Window 1", 300, 300, 100, 50⟩] = none :=
  ⟨(windowSqft_spec 10 [⟨1, BoxType.window, "Window 1", 300, 300, 100, 50⟩]
      (by norm_num)).1,
   (windowSqft_spec 10 [⟨1, BoxType.window, "Window 1", 300, 300, 100, 50⟩]
      (by norm_num)).2.1,
   (windowSqft_spec 10 [⟨1, BoxType.window, "Window 1", 300, 300, 100, 50⟩]
      (by norm_num)).2.2.1⟩

/-- C5: pricing is absent (`none`, never a zero quote) whenever there is no
calibration rectangle, the real-world inches are non-positive, or the total
area is zero. -/
theorem pricing_absent (boxes : List Box) (inches : ℚ)
    (h : referenceBox boxes = none ∨ inches ≤ 0 ∨
         windowSqft (pixelsPerInch (referenceBox boxes) inches) (windowBoxes boxes)
           = some 0) :
    renderPricing
      (windowSqft (pixelsPerInch (referenceBox boxes) inches) (windowBoxes boxes))
      (pixelsPerInch (referenceBox boxes) inches) = none := by
  rcases h with h | h | h
  · simp [h, pixelsPerInch, windowSqft, renderPricing]
  · have : pixelsPerInch (referenceBox boxes) inches = none := by
      cases referenceBox boxes with
      | none => rfl
      | some rb => simp [pixelsPerInch, not_lt.mpr h]
    simp [this, windowSqft, renderPricing]
  · rw [h]
    cases hp : pixelsPerInch (referenceBox boxes) inches with
    | none => rfl
    | some q => simp [renderPricing]

theorem pricing_absent_witness :
    renderPricing
      (windowSqft (pixelsPerInch (referenceBox ([] : List Box)) 11) (windowBoxes []))
      (pixelsPerInch (referenceBox ([] : List Box)) 11) = none :=
  pricing_absent [] 11 (Or.inl rfl)

/-- C6: for a defined positive area `a` (and a defined nonzero ppi), the
pricing output is linear in `a` at the fixed rates, with
`commission = retail − a × baseline`. -/
theorem pricing_linear (a p : ℚ) (ha : 0 < a) (hp : p ≠ 0) :
    renderPricing (some a) (some p) =
      some { retailLow := a * RETAIL_LOW_PER_SQFT
             retailHigh := a * RETAIL_HIGH_PER_SQFT
             commissionLow := a * RETAIL_LOW_PER_SQFT - a * SOLAR_PER_SQFT
             commissionHigh := a * RETAIL_HIGH_PER_SQFT - a * SOLAR_PER_SQFT } := by
  simp [renderPricing, ne_of_gt ha, hp]

theorem pricing_linear_witness :
    renderPricing (some 2) (some 10) =
      some { retailLow := 2 * RETAIL_LOW_PER_SQFT
             retailHigh := 2 * RETAIL_HIGH_PER_SQFT
             commissionLow := 2 * RETAIL_LOW_PER_SQFT - 2 * SOLAR_PER_SQFT
             commissionHigh := 2 * RETAIL_HIGH_PER_SQFT - 2 * SOLAR_PER_SQFT } :=
  pricing_linear 2 10 (by norm_num) (by norm_num)

/-- C7: `clampScale` lands in `[1, 6]` for every input, so the scale written
by the pinch path is always in `[1, 6]`, and the reset path writes scale 1. -/
theorem scale_in_bounds (x : ℚ) (start : PinchStart) (dNow : ℚ) (mNow : Pt)
    (s : AppState) :
    (1 ≤ clampScale x ∧ clampScale x ≤ 6)
    ∧ (1 ≤ (pinchMoveView start dNow mNow).scale
        ∧ (pinchMoveView start dNow mNow).scale ≤ 6)
    ∧ (resetView s).view.scale = 1 := by
  refine ⟨⟨le_max_left _ _, max_le (by norm_num) (min_le_left _ _)⟩,
          ⟨le_max_left _ _, max_le (by norm_num) (min_le_left _ _)⟩, rfl⟩

/-- C8: loading a new photo resets the viewport to the identity transform
`{ scale := 1, tx := 0, ty := 0 }`, whatever the prior viewport was. -/
theorem onFileChange_resets_view (s : AppState) (url : String) :
    (onFileChange s (some url)).view = { scale := 1, tx := 0, ty := 0 } := rfl

/-- Number of calibration (reference) rectangles in a box list. -/
def refCount (l : List Box) : Nat :=
  (l.filter (fun b => b.type == BoxType.reference)).length

lemma filter_ref_of_filter_ne (l : List Box) :
    (l.filter (fun b => b.type != BoxType.reference)).filter
      (fun b => b.type == BoxType.reference) = [] := by
  induction l with
  | nil => rfl
  | cons a t ih =>
      by_cases h : a.type = BoxType.reference <;>
        simp [List.filter_cons, h, ih]

lemma handlePointerUp_ref_boxes (s : AppState) (d : Box)
    (hd : s.draftBox = some d) (hty : d.type = BoxType.reference)
    (hw : 10 ≤ d.w) (hh : 10 ≤ d.h) :
    (handlePointerUp s).boxes.filter (fun b => b.type == BoxType.reference)
      = [{ d with id := s.nextId }] := by
  have hbig : ¬(d.w < 10 ∨ d.h < 10) := by
    rw [not_or]
    exact ⟨not_lt.mpr hw, not_lt.mpr hh⟩
  simp only [handlePointerUp, hd, if_neg hbig, if_pos hty]
  rw [List.filter_append, filter_ref_of_filter_ne]
  simp [hty]

lemma handlePointerUp_boxes_cases (s : AppState) :
    (handlePointerUp s).boxes = s.boxes
    ∨ ∃ d, s.draftBox = some d ∧ ¬(d.w < 10 ∨ d.h < 10) ∧
        ((d.type = BoxType.reference ∧
            (handlePointerUp s).boxes
              = s.boxes.filter (fun b => b.type != BoxType.reference)
                  ++ [{ d with id := s.nextId }])
          ∨ (d.type ≠ BoxType.reference ∧
              (handlePointerUp s).boxes = s.boxes ++ [{ d with id := s.nextId }])) := by
  cases hd : s.draftBox with
  | none => left; simp [handlePointerUp, hd]
  | some d =>
      by_cases hsmall : d.w < 10 ∨ d.h < 10
      · left; simp [handlePointerUp, hd, hsmall]
      · right
        refine ⟨d, rfl, hsmall, ?_⟩
        by_cases hty : d.type = BoxType.reference
        · left
          exact ⟨hty, by simp [handlePointerUp, hd, hsmall, hty]⟩
        · right
          exact ⟨hty, by simp [handlePointerUp, hd, hsmall, hty]⟩

/-- C2: a draft below the 10×10 image-pixel threshold is discarded at
pointer release leaving the committed set unchanged, and the invariant that
every committed rectangle has `w ≥ 10` and `h ≥ 10` is preserved by the
commit operation. -/
theorem min_size_filter (s : AppState) :
    (∀ d, s.draftBox = some d → (d.w < 10 ∨ d.h < 10) →
        (handlePointerUp s).boxes = s.boxes ∧ (handlePointerUp s).draftBox = none)
    ∧ ((∀ b ∈ s.boxes, 10 ≤ b.w ∧ 10 ≤ b.h) →
        ∀ b ∈ (handlePointerUp s).boxes, 10 ≤ b.w ∧ 10 ≤ b.h) := by
  constructor
  · intro d hd hsmall
    constructor <;> simp [handlePointerUp, hd, hsmall]
  · intro hall b hb
    rcases handlePointerUp_boxes_cases s with heq | ⟨d, hd, hbig, hcase⟩
    · exact hall b (heq ▸ hb)
    · rw [not_or, not_lt, not_lt] at hbig
      rcases hcase with ⟨_, heq⟩ | ⟨_, heq⟩ <;> rw [heq] at hb <;>
        rcases List.mem_append.mp hb with hmem | hmem
      · exact hall b (List.mem_of_mem_filter hmem)
      · rcases List.mem_singleton.mp hmem with rfl
        exact ⟨hbig.1, hbig.2⟩
      · exact hall b hmem
      · rcases List.mem_singleton.mp hmem with rfl
        exact ⟨hbig.1, hbig.2⟩

theorem min_size_filter_witness :
    (handlePointerUp { initState with
        draftBox := some ⟨0, BoxType.window, "Window 1", 5, 5, 4, 20⟩ }).boxes
      = ({ initState with
            draftBox := some ⟨0, BoxType.window, "Window 1", 5, 5, 4, 20⟩ } : AppState).boxes
    ∧ (handlePointerUp { initState with
        draftBox := some ⟨0, BoxType.window, "Window 1", 5, 5, 4, 20⟩ }).draftBox = none :=
  (min_size_filter _).1 ⟨0, BoxType.window, "Window 1", 5, 5, 4, 20⟩ rfl
    (Or.inl (by norm_num))

lemma commitAll_cons (s : AppState) (d : Box) (ds : List Box) :
    commitAll s (d :: ds) = commitAll (commitDraft s d) ds := rfl

lemma commitAll_ref_singleton (ds : List Box) :
    ∀ (s : AppState) (d : Box),
      (∀ e ∈ ds ++ [d], e.type = BoxType.reference ∧ 10 ≤ e.w ∧ 10 ≤ e.h) →
      ((commitAll s (ds ++ [d])).boxes.filter
          (fun b => b.type == BoxType.reference)).map Box.core = [d.core] := by
  induction ds with
  | nil =>
      intro s d hgood
      obtain ⟨hty, hw, hh⟩ := hgood d (by simp)
      have : (commitAll s [d]).boxes.filter (fun b => b.type == BoxType.reference)
          = [{ d with id := s.nextId }] :=
        handlePointerUp_ref_boxes { s with draftBox := some d } d rfl hty hw hh
      simp only [List.nil_append] at *
      rw [this]
      rfl
  | cons a t ih =>
      intro s d hgood
      rw [List.cons_append, commitAll_cons]
      exact ih (commitDraft s a) d (fun e he => hgood e (by simp [he]))

/-- C1: committing never raises the calibration count above one, and after
any sequence of valid calibration commits ending with draft `d`, the
calibration rectangles of the committed set are exactly the last draft
(up to its freshly generated id). -/
theorem calibration_singleton (s : AppState) :
    (refCount s.boxes ≤ 1 → refCount (handlePointerUp s).boxes ≤ 1)
    ∧ (∀ (ds : List Box) (d : Box),
        (∀ e ∈ ds ++ [d], e.type = BoxType.reference ∧ 10 ≤ e.w ∧ 10 ≤ e.h) →
        ((commitAll s (ds ++ [d])).boxes.filter
            (fun b => b.type == BoxType.reference)).map Box.core = [d.core]) := by
  constructor
  · intro hle
    rcases handlePointerUp_boxes_cases s with heq | ⟨d, hd, hbig, hcase⟩
    · rw [refCount, heq]; exact hle
    · rw [not_or, not_lt, not_lt] at hbig
      rcases hcase with ⟨hty, heq⟩ | ⟨hty, heq⟩
      · have := handlePointerUp_ref_boxes s d hd hty hbig.1 hbig.2
        rw [refCount, this]
        exact le_refl 1
      · rw [refCount, heq, List.filter_append]
        simp [hty]
        exact hle
  · exact fun ds d h => commitAll_ref_singleton ds s d h

theorem calibration_singleton_witness :
    (refCount (handlePointerUp initState).boxes ≤ 1)
    ∧ ((commitAll initState
          [⟨0, BoxType.reference, "Paper", 0, 0, 40, 160⟩,
           ⟨0, BoxType.reference, "Door", 9, 9, 50, 200⟩]).boxes.filter
          (fun b => b.type == BoxType.reference)).map Box.core
        = [(⟨0, BoxType.reference, "Door", 9, 9, 50, 200⟩ : Box).core] :=
  ⟨(calibration_singleton initState).1 (by decide),
   (calibration_singleton initState).2
     [⟨0, BoxType.reference, "Paper", 0, 0, 40, 160⟩]
     ⟨0, BoxType.reference, "Door", 9, 9, 50, 200⟩ (by decide)⟩

/-- A 1000×1000 canvas whose client rect starts at the origin. -/
def demoEnv : Env := ⟨1000, 1000, 0, 0⟩

/-- One full one-finger drag: pointer down, one move, release. -/
def demoDrag (s : AppState) (x1 y1 x2 y2 : ℚ) : AppState :=
  handlePointerUp (handlePointerMove (handlePointerDown s demoEnv x1 y1) demoEnv x2 y2)

/-- Load a 1000×1000 photo, switch to window drawing, draw two windows,
delete the first, draw a third. -/
def demoFinal : AppState :=
  demoDrag
    (deleteBox
      (demoDrag
        (demoDrag
          (setActiveDrawType
            (setImageNatural (onFileChange initState (some "photo")) 1000 1000)
            BoxType.window)
          100 100 200 200)
        300 100 400 200)
      1)
    100 300 200 400

lemma demoFit : getCanvasAndImageScale 1000 1000 1000 1000 = ⟨1000, 1000, 0, 0, 1⟩ := by
  norm_num [getCanvasAndImageScale]

lemma demoPoint (cx cy : ℚ) (hx0 : 0 ≤ cx) (hx1 : cx ≤ 1000) (hy0 : 0 ≤ cy)
    (hy1 : cy ≤ 1000) :
    canvasPointToImagePoint 1000 1000 (getCanvasAndImageScale 1000 1000 1000 1000)
      ⟨1, 0, 0⟩ 0 0 cx cy = some ⟨cx, cy⟩ := by
  have hA : ¬(cx < 0 ∨ cy < 0) := by
    rw [not_or]
    exact ⟨not_lt.mpr hx0, not_lt.mpr hy0⟩
  have hB : ¬((1000 : ℚ) < cx ∨ (1000 : ℚ) < cy) := by
    rw [not_or]
    exact ⟨not_lt.mpr hx1, not_lt.mpr hy1⟩
  simp only [canvasPointToImagePoint, demoFit]
  norm_num [hA, hB]

lemma demoStateToImagePoint (s : AppState) (cx cy : ℚ)
    (hnat : s.imageNatural = some (1000, 1000)) (hview : s.view = ⟨1, 0, 0⟩)
    (hx0 : 0 ≤ cx) (hx1 : cx ≤ 1000) (hy0 : 0 ≤ cy) (hy1 : cy ≤ 1000) :
    stateToImagePoint s demoEnv cx cy = some ⟨cx, cy⟩ := by
  rw [stateToImagePoint, hnat]
  show canvasPointToImagePoint 1000 1000 (getCanvasAndImageScale 1000 1000 1000 1000)
      s.view 0 0 cx cy = some ⟨cx, cy⟩
  rw [hview]
  exact demoPoint cx cy hx0 hx1 hy0 hy1

lemma demoDrag_eq (s : AppState) (x1 y1 x2 y2 : ℚ)
    (himg : s.imageUrl = "photo") (hnat : s.imageNatural = some (1000, 1000))
    (hview : s.view = ⟨1, 0, 0⟩) (htype : s.activeDrawType = BoxType.window)
    (hx0 : 0 ≤ x1) (hy0 : 0 ≤ y1) (hx2 : x2 ≤ 1000) (hy2 : y2 ≤ 1000)
    (hxle : x1 ≤ x2) (hyle : y1 ≤ y2) (hxw : 10 ≤ x2 - x1) (hyh : 10 ≤ y2 - y1) :
    demoDrag s x1 y1 x2 y2 =
      { s with
        boxes := s.boxes ++
          [⟨s.nextId, BoxType.window,
            "Window " ++ toString ((windowBoxes s.boxes).length + 1),
            x1, y1, x2 - x1, y2 - y1⟩]
        dragStart := none
        draftBox := none
        nextId := s.nextId + 1 } := by
  have himg' : ¬(s.imageUrl = "") := by rw [himg]; decide
  have hpt1 : stateToImagePoint s demoEnv x1 y1 = some ⟨x1, y1⟩ :=
    demoStateToImagePoint s x1 y1 hnat hview hx0 (le_trans hxle hx2) hy0
      (le_trans hyle hy2)
  have hdown : handlePointerDown s demoEnv x1 y1 =
      { s with
        dragStart := some ⟨x1, y1⟩
        draftBox := some ⟨0, BoxType.window,
          "Window " ++ toString ((windowBoxes s.boxes).length + 1), x1, y1, 1, 1⟩ } := by
    rw [handlePointerDown, if_neg himg', hpt1, htype]
  have hpt2 : stateToImagePoint
      { s with
        dragStart := some ⟨x1, y1⟩
        draftBox := some ⟨0, BoxType.window,
          "Window " ++ toString ((windowBoxes s.boxes).length + 1), x1, y1, 1, 1⟩ }
      demoEnv x2 y2 = some ⟨x2, y2⟩ :=
    demoStateToImagePoint _ x2 y2 hnat hview (le_trans hx0 hxle) hx2
      (le_trans hy0 hyle) hy2
  have hmove : handlePointerMove (handlePointerDown s demoEnv x1 y1) demoEnv x2 y2 =
      { s with
        dragStart := some ⟨x1, y1⟩
        draftBox := some ⟨0, BoxType.window,
          "Window " ++ toString ((windowBoxes s.boxes).length + 1),
          x1, y1, x2 - x1, y2 - y1⟩ } := by
    rw [hdown, handlePointerMove]
    show (match stateToImagePoint _ demoEnv x2 y2 with
      | none => _
      | some pt => _) = _
    rw [hpt2]
    have hminx : min x1 x2 = x1 := min_eq_left hxle
    have hminy : min y1 y2 = y1 := min_eq_left hyle
    have habsx : |x2 - x1| = x2 - x1 := abs_of_nonneg (by linarith)
    have habsy : |y2 - y1| = y2 - y1 := abs_of_nonneg (by linarith)
    simp only [hminx, hminy, habsx, habsy]
  rw [demoDrag, hmove, handlePointerUp]
  have hbig : ¬(x2 - x1 < 10 ∨ y2 - y1 < 10) := by
    rw [not_or]
    exact ⟨not_lt.mpr hxw, not_lt.mpr hyh⟩
  show (if x2 - x1 < 10 ∨ y2 - y1 < 10 then _ else _) = _
  rw [if_neg hbig]
  have hty : ¬(BoxType.window = BoxType.reference) := by decide
  simp only [if_neg hty]

lemma demoFinal_boxes :
    demoFinal.boxes =
      [⟨2, BoxType.window, "Window " ++ toString 2, 300, 100, 100, 100⟩,
       ⟨3, BoxType.window, "Window " ++ toString 2, 100, 300, 100, 100⟩] := by
  have h0 : setActiveDrawType
      (setImageNatural (onFileChange initState (some "photo")) 1000 1000)
      BoxType.window =
      { imageUrl := "photo", imageNatural := some (1000, 1000), boxes := [],
        activeDrawType := BoxType.window, dragStart := none, draftBox := none,
        refPreset := RefPreset.paper, refRealInches := 11,
        view := { scale := 1, tx := 0, ty := 0 }, nextId := 1 } := rfl
  rw [demoFinal, h0]
  rw [demoDrag_eq _ 100 100 200 200 rfl rfl rfl rfl (by norm_num) (by norm_num)
    (by norm_num) (by norm_num) (by norm_num) (by norm_num) (by norm_num) (by norm_num)]
  norm_num [windowBoxes]
  rw [demoDrag_eq _ 300 100 400 200 rfl rfl rfl rfl (by norm_num) (by norm_num)
    (by norm_num) (by norm_num) (by norm_num) (by norm_num) (by norm_num) (by norm_num)]
  norm_num [windowBoxes, deleteBox]
  rw [demoDrag_eq _ 100 300 200 400 rfl rfl rfl rfl (by norm_num) (by norm_num)
    (by norm_num) (by norm_num) (by norm_num) (by norm_num) (by norm_num) (by norm_num)]
  norm_num [windowBoxes]

/-- C10: after committing two windows, deleting the first one and committing
a third, two distinct committed measurement rectangles (distinct ids) carry
the same auto-generated label, because the label is derived from the current
measurement count + 1 at creation time. -/
theorem window_labels_not_unique :
    ∃ b1 ∈ demoFinal.boxes, ∃ b2 ∈ demoFinal.boxes,
      b1.id ≠ b2.id ∧ b1.type = BoxType.window ∧ b2.type = BoxType.window
        ∧ b1.label = b2.label := by
  refine ⟨⟨2, BoxType.window, "Window " ++ toString 2, 300, 100, 100, 100⟩, ?_,
          ⟨3, BoxType.window, "Window " ++ toString 2, 100, 300, 100, 100⟩, ?_,
          by norm_num, rfl, rfl, rfl⟩ <;>
    rw [demoFinal_boxes] <;> simp

/-- A point lies inside `[0, nw] × [0, nh]`. -/
def ptIn (nw nh : ℚ) (p : Pt) : Prop :=
  0 ≤ p.x ∧ p.x ≤ nw ∧ 0 ≤ p.y ∧ p.y ≤ nh

/-- A rectangle lies entirely within the image bounds. -/
def inBounds (nw nh : ℚ) (b : Box) : Prop :=
  0 ≤ b.x ∧ 0 ≤ b.y ∧ b.x + b.w ≤ nw ∧ b.y + b.h ≤ nh

/-- The interaction invariant: committed boxes are in bounds, the drag
anchor (when present) is an accepted in-bounds point, and the draft is
either below the commit threshold or in bounds. -/
def Inv (nw nh : ℚ) (s : AppState) : Prop :=
  (∀ b ∈ s.boxes, inBounds nw nh b)
  ∧ (∀ a, s.dragStart = some a → ptIn nw nh a)
  ∧ (∀ d, s.draftBox = some d → (d.w < 10 ∨ d.h < 10) ∨ inBounds nw nh d)

lemma canvasPointToImagePoint_mem (natW natH : ℚ) (fit : Fit) (view : View)
    (rectLeft rectTop clientX clientY : ℚ) (p : Pt)
    (h : canvasPointToImagePoint natW natH fit view rectLeft rectTop clientX clientY
        = some p) :
    ptIn natW natH p := by
  simp only [canvasPointToImagePoint] at h
  split_ifs at h with h1 h2
  rw [not_or, not_lt, not_lt] at h1
  rw [not_or, not_lt, not_lt] at h2
  cases Option.some.inj h
  exact ⟨h1.1, h2.1, h1.2, h2.2⟩

lemma stateToImagePoint_mem (s : AppState) (env : Env) (nw nh cx cy : ℚ) (p : Pt)
    (hnat : s.imageNatural = some (nw, nh))
    (h : stateToImagePoint s env cx cy = some p) :
    ptIn nw nh p := by
  rw [stateToImagePoint, hnat] at h
  exact canvasPointToImagePoint_mem _ _ _ _ _ _ _ _ _ h

/-- C9: the bounds invariant is preserved by pointer down, pointer move,
pointer release and deletion, so every rectangle committed at release lies
entirely within the loaded image's bounds. -/
theorem committed_boxes_in_bounds (s : AppState) (env : Env) (nw nh cx cy : ℚ)
    (i : Nat) (hnat : s.imageNatural = some (nw, nh)) (hInv : Inv nw nh s) :
    Inv nw nh (handlePointerDown s env cx cy)
    ∧ Inv nw nh (handlePointerMove s env cx cy)
    ∧ Inv nw nh (handlePointerUp s)
    ∧ Inv nw nh (deleteBox s i)
    ∧ ∀ b ∈ (handlePointerUp s).boxes, inBounds nw nh b := by
  obtain ⟨hboxes, hanchor, hdraft⟩ := hInv
  have hup : Inv nw nh (handlePointerUp s) := by
    cases hd : s.draftBox with
    | none =>
        have hbx : (handlePointerUp s).boxes = s.boxes := by simp [handlePointerUp, hd]
        refine ⟨fun b hb => hboxes b (hbx ▸ hb), ?_, ?_⟩ <;>
          intro z hz <;> simp [handlePointerUp, hd] at hz
    | some d =>
        by_cases hsmall : d.w < 10 ∨ d.h < 10
        · have hbx : (handlePointerUp s).boxes = s.boxes := by
            simp [handlePointerUp, hd, hsmall]
          refine ⟨fun b hb => hboxes b (hbx ▸ hb), ?_, ?_⟩ <;>
            intro z hz <;> simp [handlePointerUp, hd, hsmall] at hz
        · have hdin : inBounds nw nh d := by
            rcases hdraft d hd with hsm | hin
            · exact absurd hsm hsmall
            · exact hin
          have hmem : ∀ b ∈ (handlePointerUp s).boxes, inBounds nw nh b := by
            intro b hb
            rcases handlePointerUp_boxes_cases s with heq | ⟨d', hd', _, hcase⟩
            · exact hboxes b (heq ▸ hb)
            · have hdd : d' = d := by
                rw [hd] at hd'
                exact (Option.some.inj hd').symm
              subst hdd
              rcases hcase with ⟨_, heq⟩ | ⟨_, heq⟩ <;> rw [heq] at hb <;>
                rcases List.mem_append.mp hb with hm | hm
              · exact hboxes b (List.mem_of_mem_filter hm)
              · rcases List.mem_singleton.mp hm with rfl
                exact hdin
              · exact hboxes b hm
              · rcases List.mem_singleton.mp hm with rfl
                exact hdin
          refine ⟨hmem, ?_, ?_⟩ <;>
            intro z hz <;> simp [handlePointerUp, hd, hsmall] at hz
  refine ⟨?_, ?_, hup, ?_, hup.1⟩
  · -- handlePointerDown
    by_cases hurl : s.imageUrl = ""
    · simpa [handlePointerDown, hurl] using ⟨hboxes, hanchor, hdraft⟩
    · cases hpt : stateToImagePoint s env cx cy with
      | none => simpa [handlePointerDown, hurl, hpt] using ⟨hboxes, hanchor, hdraft⟩
      | some pt =>
          have hptin := stateToImagePoint_mem s env nw nh cx cy pt hnat hpt
          refine ⟨?_, ?_, ?_⟩
          · intro b hb
            exact hboxes b (by simpa [handlePointerDown, hurl, hpt] using hb)
          · intro a ha
            simp only [handlePointerDown, hurl, hpt, if_neg] at ha
            cases Option.some.inj ha
            exact hptin
          · intro d hdd
            simp only [handlePointerDown, hurl, hpt, if_neg hurl] at hdd
            cases Option.some.inj hdd
            left
            left
            norm_num
  · -- handlePointerMove
    cases ha : s.dragStart with
    | none => simpa [handlePointerMove, ha] using ⟨hboxes, hanchor, hdraft⟩
    | some a =>
        cases hdb : s.draftBox with
        | none => simpa [handlePointerMove, ha, hdb] using ⟨hboxes, hanchor, hdraft⟩
        | some d =>
            cases hpt : stateToImagePoint s env cx cy with
            | none => simpa [handlePointerMove, ha, hdb, hpt] using ⟨hboxes, hanchor, hdraft⟩
            | some pt =>
                have hain := hanchor a ha
                have hptin := stateToImagePoint_mem s env nw nh cx cy pt hnat hpt
                refine ⟨?_, ?_, ?_⟩
                · intro b hb
                  exact hboxes b (by simpa [handlePointerMove, ha, hdb, hpt] using hb)
                · intro a' ha'
                  simp only [handlePointerMove, ha, hdb, hpt] at ha'
                  cases Option.some.inj ha'
                  exact hain
                · intro d' hd'
                  simp only [handlePointerMove, ha, hdb, hpt] at hd'
                  cases Option.some.inj hd'
                  right
                  obtain ⟨hax0, haxW, hay0, hayH⟩ := hain
                  obtain ⟨hpx0, hpxW, hpy0, hpyH⟩ := hptin
                  have hxspan : min a.x pt.x + |pt.x - a.x| = max a.x pt.x := by
                    rw [← max_sub_min_eq_abs, min_comm a.x pt.x, max_comm a.x pt.x]
                    ring
                  have hyspan : min a.y pt.y + |pt.y - a.y| = max a.y pt.y := by
                    rw [← max_sub_min_eq_abs, min_comm a.y pt.y, max_comm a.y pt.y]
                    ring
                  exact ⟨le_min hax0 hpx0, le_min hay0 hpy0,
                    by rw [hxspan]; exact max_le haxW hpxW,
                    by rw [hyspan]; exact max_le hayH hpyH⟩
  · -- deleteBox
    refine ⟨?_, ?_, ?_⟩
    · intro b hb
      exact hboxes b (List.mem_of_mem_filter hb)
    · exact hanchor
    · exact hdraft

theorem committed_boxes_in_bounds_witness :
    Inv 1000 1000 (handlePointerUp { initState with imageNatural := some (1000, 1000) }) :=
  (committed_boxes_in_bounds { initState with imageNatural := some (1000, 1000) }
      demoEnv 1000 1000 5 5 0 rfl
      ⟨by simp [initState], by simp [initState], by simp [initState]⟩).2.2.1

lemma baseScale_pos (natW natH dispW dispH : ℚ)
    (h1 : 0 < natW) (h2 : 0 < natH) (h3 : 0 < dispW) (h4 : 0 < dispH) :
    0 < (getCanvasAndImageScale natW natH dispW dispH).baseScale := by
  rw [getCanvasAndImageScale]
  split
  · exact div_pos h3 h1
  · show 0 < dispH * (natW / natH) / natW
    positivity

lemma unmapPoint (rl off t sc bs px : ℚ) (hsc : sc ≠ 0) (hbs : bs ≠ 0) :
    (rl + (off + t + px * bs * sc) - rl - off - t) / sc / bs = px := by
  field_simp
  ring

/-- C3: for any image point strictly inside the image, any contain fit
computed from positive image and surface sizes, and any viewport with scale
in `[1, 6]`, mapping image → device with the renderer's `drawBox` transform
and back with `canvasPointToImagePoint` returns exactly the original point. -/
theorem device_image_round_trip (natW natH dispW dispH : ℚ) (view : View) (b : Box)
    (rectLeft rectTop : ℚ)
    (h1 : 0 < natW) (h2 : 0 < natH) (h3 : 0 < dispW) (h4 : 0 < dispH)
    (hs1 : 1 ≤ view.scale) (hs6 : view.scale ≤ 6)
    (hx0 : 0 < b.x) (hxW : b.x < natW) (hy0 : 0 < b.y) (hyH : b.y < natH) :
    canvasPointToImagePoint natW natH (getCanvasAndImageScale natW natH dispW dispH)
      view rectLeft rectTop
      (rectLeft + (drawBox b (getCanvasAndImageScale natW natH dispW dispH) view).x)
      (rectTop + (drawBox b (getCanvasAndImageScale natW natH dispW dispH) view).y)
      = some ⟨b.x, b.y⟩ := by
  have hbs : (getCanvasAndImageScale natW natH dispW dispH).baseScale ≠ 0 :=
    ne_of_gt (baseScale_pos natW natH dispW dispH h1 h2 h3 h4)
  have hsc : view.scale ≠ 0 := by positivity
  simp only [canvasPointToImagePoint, drawBox]
  rw [unmapPoint _ _ _ _ _ _ hsc hbs, unmapPoint _ _ _ _ _ _ hsc hbs]
  rw [if_neg (by rw [not_or]; exact ⟨not_lt.mpr (le_of_lt hx0), not_lt.mpr (le_of_lt hy0)⟩)]
  rw [if_neg (by rw [not_or]; exact ⟨not_lt.mpr (le_of_lt hxW), not_lt.mpr (le_of_lt hyH)⟩)]

theorem device_image_round_trip_witness :
    canvasPointToImagePoint 1000 800 (getCanvasAndImageScale 1000 800 500 500)
      ⟨2, 30, 40⟩ 7 9
      (7 + (drawBox ⟨0, BoxType.window, "W", 100, 100, 20, 20⟩
          (getCanvasAndImageScale 1000 800 500 500) ⟨2, 30, 40⟩).x)
      (9 + (drawBox ⟨0, BoxType.window, "W", 100, 100, 20, 20⟩
          (getCanvasAndImageScale 1000 800 500 500) ⟨2, 30, 40⟩).y)
      = some ⟨100, 100⟩ :=
  device_image_round_trip 1000 800 500 500 ⟨2, 30, 40⟩
    ⟨0, BoxType.window, "W", 100, 100, 20, 20⟩ 7 9
    (by norm_num) (by norm_num) (by norm_num) (by norm_num)
    (by norm_num) (by norm_num) (by norm_num) (by norm_num) (by norm_num) (by norm_num)

end WinEst
